import Mathlib

/- Verification of the Shared-AddIn selection-routing and error-handling core.

   The definitions below are a shallow embedding of the JavaScript sources
   `src/taskpane.js` and `src/error-handler.js`.  Strings are modelled through
   their character lists; the JavaScript string primitives used by the code
   (trim, toUpperCase, toLowerCase, split on a one-character separator,
   global replace of a single character) are embedded as executable Lean
   functions over `List Char`.  Machine integers of the source are modelled
   as `Nat` (the quantities involved: column numbers, rows, timestamps and
   token counts are all non-negative and far from any overflow boundary). -/

namespace AddIn

/-! ### Character classes

The regular expressions of the source use the classes `[A-Z]`, `\d`,
`[a-z0-9_-]` and `\s`; they are embedded through code points. -/

/-- The whitespace class `\s` (also the characters removed by `trim`),
restricted to its ASCII members: space, tab, LF, VT, FF, CR. -/
def isSpace (c : Char) : Bool :=
  decide (c.toNat = 32 ∨ c.toNat = 9 ∨ c.toNat = 10 ∨ c.toNat = 11 ∨
    c.toNat = 12 ∨ c.toNat = 13)

/-- The class `[a-z]`. -/
def isLowerAlpha (c : Char) : Bool := decide (97 ≤ c.toNat ∧ c.toNat ≤ 122)

/-- The class `[A-Z]`. -/
def isUpperAlpha (c : Char) : Bool := decide (65 ≤ c.toNat ∧ c.toNat ≤ 90)

/-- The class `\d` = `[0-9]`. -/
def isDigitChar (c : Char) : Bool := decide (48 ≤ c.toNat ∧ c.toNat ≤ 57)

/-- One character of JavaScript `toUpperCase()` (ASCII range). -/
def jsUpperChar (c : Char) : Char :=
  if isLowerAlpha c then Char.ofNat (c.toNat - 32) else c

/-- One character of JavaScript `toLowerCase()` (ASCII range). -/
def jsLowerChar (c : Char) : Char :=
  if isUpperAlpha c then Char.ofNat (c.toNat + 32) else c

/-! ### JavaScript string primitives -/

/-- JavaScript `String.prototype.toLowerCase`. -/
def jsToLower (s : String) : String := (s.toList.map jsLowerChar).asString

/-- JavaScript `String.prototype.toUpperCase`. -/
def jsToUpper (s : String) : String := (s.toList.map jsUpperChar).asString

/-- JavaScript `String.prototype.trim` on a character list: drop leading
whitespace, then drop trailing whitespace. -/
def trimChars (l : List Char) : List Char :=
  ((l.dropWhile isSpace).reverse.dropWhile isSpace).reverse

/-- JavaScript `String.prototype.trim`. -/
def jsTrim (s : String) : String := (trimChars s.toList).asString

/-- JavaScript `String.prototype.split` with a one-character separator:
every occurrence of the separator splits, empty segments are kept, and the
result is always non-empty (`"".split(x)` is `[""]`). -/
def splitOnChar (sep : Char) : List Char → List (List Char)
  | [] => [[]]
  | c :: rest =>
    if c == sep then [] :: splitOnChar sep rest
    else
      match splitOnChar sep rest with
      | h :: t => (c :: h) :: t
      | [] => [[c]]

/-! ### Address utilities (`src/taskpane.js`, lines 222–268) -/

/-- A parsed A1 token: column and row, both 1-based (`parsePoint` result). -/
structure Point where
  c : Nat
  r : Nat
deriving Repr, DecidableEq

/-- A rectangular area with normalized corners (`parseArea` result). -/
structure Area where
  c1 : Nat
  r1 : Nat
  c2 : Nat
  r2 : Nat
deriving Repr, DecidableEq

/-- `colToNum` (line 267): base-26 decoding of a column-letter string,
`n = n*26 + (charCode - 64)` over the characters. -/
def colToNum (col : String) : Nat :=
  col.toList.foldl (fun n c => n * 26 + (c.toNat - 64)) 0

/-- `parseInt(digits, 10)` on an all-digit string. -/
def parseDecimal (digits : List Char) : Nat :=
  digits.foldl (fun n c => n * 10 + (c.toNat - 48)) 0

/-- `parsePoint` (lines 262–266): match the uppercased token against the
anchored pattern `^([A-Z]+)(\d+)$`; on failure return column 1, row 1.
The two classes `[A-Z]` and `\d` are disjoint, so the anchored greedy match
succeeds exactly when the maximal `[A-Z]`-prefix is non-empty and the
remainder is a non-empty all-digit list. -/
def parsePoint (p : String) : Point :=
  let u := p.toList.map jsUpperChar
  let letters := u.takeWhile isUpperAlpha
  let rest := u.dropWhile isUpperAlpha
  if !letters.isEmpty && !rest.isEmpty && rest.all isDigitChar then
    { c := colToNum letters.asString, r := parseDecimal rest }
  else
    { c := 1, r := 1 }

/-- `parseArea` (lines 246–260): split on `":"`; a single token is a
one-cell area, otherwise the first two tokens give the corners, normalized
with min/max.  (`splitOnChar` never returns `[]`; the last arm is dead.) -/
def parseArea (a1 : String) : Area :=
  match splitOnChar ':' a1.toList with
  | [p] =>
    let pt := parsePoint p.asString
    { c1 := pt.c, r1 := pt.r, c2 := pt.c, r2 := pt.r }
  | p1 :: p2 :: _ =>
    let q1 := parsePoint p1.asString
    let q2 := parsePoint p2.asString
    { c1 := min q1.c q2.c, r1 := min q1.r q2.r,
      c2 := max q1.c q2.c, r2 := max q1.r q2.r }
  | [] => { c1 := 1, r1 := 1, c2 := 1, r2 := 1 }

/-- `areaContains` (line 268). -/
def areaContains (a b : Area) : Bool :=
  a.c1 ≤ b.c1 && a.r1 ≤ b.r1 && a.c2 ≥ b.c2 && a.r2 ≥ b.r2

/-- `containsAddress` (lines 231–244): every target area must be contained
in some single selection area.  The source's nested loop with a `covered`
flag and early returns is the all/any combination below. -/
def containsAddress (selection target : String) : Bool :=
  let selAreas := splitOnChar ',' selection.toList
  let tgtAreas := splitOnChar ',' target.toList
  tgtAreas.all fun t =>
    selAreas.any fun s =>
      areaContains (parseArea (jsTrim s.asString)) (parseArea (jsTrim t.asString))

/-- `normalizeA1` (line 229): `replace(/\$/g, "").toUpperCase()`. -/
def normalizeA1 (addr : String) : String :=
  ((addr.toList.filter (fun c => c != '$')).map jsUpperChar).asString

/-- `localizeAddress` (lines 224–228): drop the `Sheet!` prefix (everything
up to the first `"!"`, rejoining the remaining segments with `"!"`), then
`replace(/\$/g, "")`. -/
def localizeAddress (fullAddress : String) : String :=
  let parts := splitOnChar '!' fullAddress.toList
  let loc := if parts.length > 1 then List.intercalate ['!'] (parts.drop 1)
             else parts.headD []
  (loc.filter (fun c => c != '$')).asString

/-! ### Routing helpers (`src/taskpane.js`, lines 6–11 and 151–220) -/

/-- The own properties of the object literal `HtmlMap` (lines 7–11): the
three registered form ids and their html files. -/
def HtmlMap (formId : String) : Option String :=
  if formId == "default" then some "./forms/default.html"
  else if formId == "settings" then some "./forms/settings.html"
  else if formId == "colorPalette" then some "./forms/colorPalette.html"
  else none

/-- Property names every plain object literal inherits from
`Object.prototype`.  A bare indexed lookup such as `HtmlMap[k]` reaches
them, and each of their values is truthy (a built-in function, or
`Object.prototype` itself for `__proto__`). -/
def objectProtoKey (k : String) : Bool :=
  k == "constructor" || k == "hasOwnProperty" || k == "isPrototypeOf" ||
  k == "propertyIsEnumerable" || k == "toLocaleString" || k == "toString" ||
  k == "valueOf" || k == "__proto__" || k == "__defineGetter__" ||
  k == "__defineSetter__" || k == "__lookupGetter__" || k == "__lookupSetter__"

/-- Truthiness of the JavaScript lookup `HtmlMap[k]`, as the source tests
it in `pickFormId` (lines 162 and 164): an own key (all three stored values
are non-empty strings, hence truthy) or an `Object.prototype`-inherited
key. -/
def hasForm (formId : String) : Bool :=
  (HtmlMap formId).isSome || objectProtoKey formId

/-- The identifier class `[a-z0-9_-]` under the `i` flag (so `[A-Z]` too). -/
def isHintIdentChar (c : Char) : Bool :=
  isLowerAlpha c || isUpperAlpha c || isDigitChar c || c == '_' || c == '-'

/-- Anchored match of `form\s*:\s*([a-z0-9_-]+)` (case-insensitive) at the
head of the list, returning the captured identifier.  All quantified
sub-patterns range over pairwise disjoint character classes, so the greedy
match is the maximal-munch scan below. -/
def matchHintAt : List Char → Option (List Char)
  | f :: o :: r :: m :: rest =>
    if jsLowerChar f == 'f' && jsLowerChar o == 'o' &&
       jsLowerChar r == 'r' && jsLowerChar m == 'm' then
      match rest.dropWhile isSpace with
      | ':' :: rest2 =>
        let ident := (rest2.dropWhile isSpace).takeWhile isHintIdentChar
        if ident.isEmpty then none else some ident
      | _ => none
    else none
  | _ => none

/-- Unanchored `exec`: first position (leftmost) where the pattern matches. -/
def findHint : List Char → Option (List Char)
  | [] => none
  | c :: rest =>
    match matchHintAt (c :: rest) with
    | some ident => some ident
    | none => findHint rest

/-- `parseFormHintFromCell` (lines 153–159): take cell text `[0][0]` when
the 2-d array and the cell value are truthy (an empty string is falsy and
yields `""`, which changes nothing), run the hint pattern over it, and
lowercase the captured identifier. -/
def parseFormHintFromCell (text2d : List (List String)) : Option String :=
  let t := match text2d with
    | (s :: _) :: _ => if s == "" then "" else s
    | _ => ""
  (findHint t.toList).map fun ident => (ident.map jsLowerChar).asString

/-- The sheet-name fallback inside `pickFormId` (lines 163–165):
lowercase-trimmed sheet name when it is a known form, else `"default"`. -/
def pickFormIdFromSheet (sheetName : String) : String :=
  let key := jsTrim (jsToLower sheetName)
  if hasForm key then key else "default"

/-- `pickFormId` (lines 161–166): a truthy known hint wins, else the sheet
fallback. -/
def pickFormId (hint : Option String) (sheetName : String) : String :=
  match hint with
  | some h => if h != "" && hasForm h then h else pickFormIdFromSheet sheetName
  | none => pickFormIdFromSheet sheetName

/-- A selection route (`SelectionRoutes` entries, lines 23–25): the source
rule's `match.address` and `match.name` become two optional fields. -/
structure RouteRule where
  sheet : String
  address : Option String
  name : Option String
  form : String

/-- `hasSelectionRoutesForSheet` (lines 168–171). -/
def hasSelectionRoutesForSheet (rules : List RouteRule) (sheetName : String) : Bool :=
  let s := jsTrim (jsToLower sheetName)
  rules.any fun r => jsTrim (jsToLower r.sheet) == s

/-- The apostrophe character (code point 39). -/
def apos : Char := Char.ofNat 39

/-- `replace(/^'/, "")`: drop one leading apostrophe when present. -/
def dropLeadingApos (l : List Char) : List Char :=
  match l with
  | c :: rest => if c == apos then rest else c :: rest
  | [] => []

/-- `replace(/^'/, "").replace(/'$/, "")` (line 202). -/
def stripApos (l : List Char) : List Char :=
  let a := dropLeadingApos l
  (dropLeadingApos a.reverse).reverse

/-- The address arm of a rule (lines 183–186): `m.address` is present and
the normalized selection covers the normalized rule address. -/
def ruleAddressFires (sel : String) (r : RouteRule) : Bool :=
  match r.address with
  | some a => containsAddress sel (normalizeA1 a)
  | none => false

/-- The named-range arm of a rule (lines 188–217): `m.name` is present,
the workbook resolves it (`env nm = some fullAddr`; `none` covers both a
missing name, `isNullObject`, and the swallowed not-a-range exception), the
name's sheet prefix — when there is one — is the current sheet, and the
normalized selection covers the localized resolved address.  Every failure
of this arm makes the loop move to the next rule (`continue` / fallthrough
in the source), so the arm reduces to this fire/no-fire test. -/
def ruleNameFires (env : String → Option String) (s sel : String) (r : RouteRule) : Bool :=
  match r.name with
  | some nm =>
    match env nm with
    | some fullAddr =>
      let parts := splitOnChar '!' fullAddr.toList
      let sheetFromName :=
        if parts.length > 1 then (stripApos (parts.headD [])).asString else s
      if jsTrim (jsToLower sheetFromName) != s then false
      else containsAddress sel (normalizeA1 (localizeAddress fullAddr))
    | none => false
  | none => false

/-- The rule loop of `pickSelectionOverride` (lines 179–218): skip rules
for other sheets; within a rule the address arm is evaluated first and the
named-range arm only when it did not fire; the first firing rule returns
its form.  The current sheet `s` arrives already lowercase-trimmed, the
selection `sel` already normalized, exactly as at the call site. -/
def overrideLoop (env : String → Option String) (s sel : String) :
    List RouteRule → Option String
  | [] => none
  | rule :: rest =>
    if jsTrim (jsToLower rule.sheet) != s then overrideLoop env s sel rest
    else if ruleAddressFires sel rule then some rule.form
    else if ruleNameFires env s sel rule then some rule.form
    else overrideLoop env s sel rest

/-- `pickSelectionOverride` (lines 174–220). -/
def pickSelectionOverride (env : String → Option String) (rules : List RouteRule)
    (sheetName selectionAddress : String) : Option String :=
  let s := jsTrim (jsToLower sheetName)
  let sel := normalizeA1 selectionAddress
  if !hasSelectionRoutesForSheet rules s then none
  else overrideLoop env s sel rules

/-! ### The guarded selection-changed handler (`src/taskpane.js`, lines 1–4
and 93–124, with `renderForm`, lines 277–286) -/

/-- `RENDER_COOLDOWN_MS` (line 3). -/
def RENDER_COOLDOWN_MS : Nat := 120

/-- The module-level render state (`lastRenderTs`, `lastRenderedFormId`,
lines 2 and 4). -/
structure RenderState where
  lastRenderTs : Nat
  lastRenderedFormId : Option String
deriving Repr, DecidableEq

/-- Observable actions of the handler: the sheet badge update and the
`fetch` performed by `renderForm`. -/
inductive UIEffect
  | badge (sheetName : String)
  | fetchForm (url : String)
deriving Repr, DecidableEq

/-- The url fetched by `renderForm` (line 280): `HtmlMap[formId] ||
HtmlMap.default`.  At an `Object.prototype`-inherited form id the source
would pass the inherited non-string object itself to `fetch`; this model
keeps the string type and returns the default url there, which no theorem
below relies on. -/
def renderFormUrl (formId : String) : String :=
  match HtmlMap formId with
  | some url => url
  | none => "./forms/default.html"

/-- `onSelectionChanged` (lines 94–124) as a state transition.  Inputs that
the handler reads from the workbook become parameters: `now` is the first
`Date.now()` (line 95), `now2` the second one (line 116), `wsName` the
active sheet name, `a1Text` the text of cell A1, `selAddress` the selected
range's address, `env`/`rules` as in `pickSelectionOverride`.  Inside the
cooldown window the handler returns before doing anything; otherwise it
re-routes and swaps the form (badge + fetch, and both state fields updated)
only when the resolved form id differs from the last rendered one. -/
def onSelectionChanged (now now2 : Nat) (wsName : String)
    (a1Text : List (List String)) (selAddress : String)
    (env : String → Option String) (rules : List RouteRule)
    (st : RenderState) : RenderState × List UIEffect :=
  if now - st.lastRenderTs < RENDER_COOLDOWN_MS then (st, [])
  else
    let sheetName := jsTrim wsName
    let hint := parseFormHintFromCell a1Text
    let baseFormId := pickFormId hint sheetName
    let selectionAddress := localizeAddress selAddress
    let overrideFormId := pickSelectionOverride env rules sheetName selectionAddress
    let nextFormId := match overrideFormId with
      | some f => if f == "" then baseFormId else f
      | none => baseFormId
    if some nextFormId ≠ st.lastRenderedFormId then
      ({ lastRenderTs := now2, lastRenderedFormId := some nextFormId },
       [UIEffect.badge sheetName, UIEffect.fetchForm (renderFormUrl nextFormId)])
    else (st, [])

/-! ### Error handler (`src/error-handler.js`) -/

/-- A token bucket (`_rate.notify` / `_rate.log`, lines 21–24). -/
structure Bucket where
  tokens : Nat
  max : Nat
  refillMs : Nat
  last : Nat
  suppressed : Bool
deriving Repr, DecidableEq

/-- `_refill` (lines 25–35). -/
def refill (now : Nat) (b : Bucket) : Bucket :=
  let elapsed := now - b.last
  let add := elapsed / b.refillMs
  if add > 0 then
    let tokens := min b.max (b.tokens + add)
    { b with tokens := tokens, last := now,
             suppressed := if tokens > 0 then false else b.suppressed }
  else b

/-- `_consume` (lines 36–40): refill, then take a token when available. -/
def consume (now : Nat) (b : Bucket) : Bool × Bucket :=
  let b1 := refill now b
  if b1.tokens > 0 then (true, { b1 with tokens := b1.tokens - 1 }) else (false, b1)

/-- `_dedupe` (line 18). -/
structure DedupeState where
  lastSig : String
  lastAt : Nat
deriving Repr, DecidableEq

/-- `shouldDedupe` (lines 69–77): same signature within 1200 ms is a
duplicate; otherwise the signature and timestamp are recorded. -/
def shouldDedupe (now : Nat) (sig : String) (d : DedupeState) : Bool × DedupeState :=
  if sig == d.lastSig && now - d.lastAt < 1200 then (true, d)
  else (false, { lastSig := sig, lastAt := now })

/-- A thrown JavaScript value as `handleError` consumes it: its `.message`
and `.stack` when present (`none` models an absent property), plus the
`safeToString` rendering used as fallback. -/
structure JsError where
  message : Option String
  stack : Option String
  fallback : String
deriving Repr, DecidableEq

/-- `(err && err.message) ? err.message : safeToString(err)` — an absent or
empty (falsy) message falls back to `safeToString`. -/
def errMessage (e : JsError) : String :=
  match e.message with
  | some m => if m == "" then e.fallback else m
  | none => e.fallback

/-- `err && err.stack ? String(err.stack) : ""`. -/
def errStack (e : JsError) : String :=
  match e.stack with
  | some st => if st == "" then "" else st
  | none => ""

/-- `signature` (lines 63–67): `context|message|stack.slice(0,120)`. -/
def signature (e : JsError) (context : String) : String :=
  let m := errMessage e
  let s := ((errStack e).toList.take 120).asString
  context ++ "|" ++ m ++ "|" ++ s

/-- The mutable fields of the handler object `EH` that the embedded
operations touch. -/
structure EHState where
  initialized : Bool
  dev : Bool
  inHandle : Bool
  dedupe : DedupeState
  notifyBucket : Bucket
  logBucket : Bucket
deriving Repr, DecidableEq

/-- Observable actions of the error handler: console output, a toast
notification (`notify`), and the asynchronous `_Logs` row append. -/
inductive EHEffect
  | console (msg : String)
  | toast (msg : String)
  | logRow (context msg stack : String)
deriving Repr, DecidableEq

/-- `init` (lines 79–97): once only; reads `_Settings!B4` when reachable.
`devCell = some v` models a readable cell value, `none` the absent sheet /
host (the catch keeps the previous default). -/
def initEH (devCell : Option String) (st : EHState) : EHState :=
  if st.initialized then st
  else
    let dev := match devCell with
      | some v =>
        let w := jsTrim (jsToLower v)
        w == "true" || w == "1" || w == "yes"
      | none => st.dev
    { st with initialized := true, dev := dev }

/-- `notify` (lines 99–129) restricted to its observable outcome: consume
from the notify bucket; on exhaustion show the one-time suppression note
(dev only) and mark the bucket suppressed, otherwise show the toast. -/
def notifyEH (now : Nat) (dev : Bool) (message : String) (b : Bucket) :
    Bucket × List EHEffect :=
  match consume now b with
  | (true, b1) => (b1, [EHEffect.toast message])
  | (false, b1) =>
    if !b1.suppressed then
      ({ b1 with suppressed := true },
       if dev then [EHEffect.toast "Too many errors — notifications temporarily suppressed."]
       else [])
    else (b1, [])

/-- `handleError` (lines 131–199) as a state transition.  `excelHost`
models `typeof Excel !== "undefined" && Office?.context?.host`.  Every
non-nested exit clears `inHandle` (the `finally`); the nested entry returns
before setting it.  The body is pure here, so the inner catch (lines
194–195) has no arm. -/
def handleError (now : Nat) (devCell : Option String) (excelHost : Bool)
    (e : JsError) (context : String) (st : EHState) : EHState × List EHEffect :=
  if st.inHandle then (st, [EHEffect.console "Nested error ignored"])
  else
    let st1 := initEH devCell { st with inHandle := true }
    let msg := errMessage e
    let sig := signature e context
    match shouldDedupe now sig st1.dedupe with
    | (true, d) => ({ st1 with dedupe := d, inHandle := false }, [])
    | (false, d) =>
      let st2 := { st1 with dedupe := d }
      let consoleFx := if st2.dev then [EHEffect.console ("❌ " ++ context)] else []
      let toastMsg := (if context == "" then "" else context ++ ": ") ++ msg
      let nfy := notifyEH now st2.dev toastMsg st2.notifyBucket
      let st3 := { st2 with notifyBucket := nfy.1 }
      if excelHost then
        match consume now st3.logBucket with
        | (false, lb) =>
          if !lb.suppressed && st3.dev then
            let nfy2 := notifyEH now st3.dev
              "Too many errors — logging suppressed temporarily." st3.notifyBucket
            ({ st3 with logBucket := { lb with suppressed := true },
                        notifyBucket := nfy2.1, inHandle := false },
             consoleFx ++ nfy.2 ++ nfy2.2)
          else ({ st3 with logBucket := lb, inHandle := false }, consoleFx ++ nfy.2)
        | (true, lb) =>
          ({ st3 with logBucket := lb, inHandle := false },
           consoleFx ++ nfy.2 ++ [EHEffect.logRow context msg ((errStack e).toList.take 8000).asString])
      else ({ st3 with inHandle := false }, consoleFx ++ nfy.2)

/-- `tryWrap` (lines 217–226): init, run the body; a completed body's value
is returned untouched, a thrown/rejected body is routed to `handleError`
and the call resolves to `undefined` (`none`).  The body is modelled as an
`Except`; `toJsError` is the reflection of the thrown value.  The result
type `Option A × (EHState × List EHEffect)` has no error component: the
wrapper is total, nothing escapes it. -/
def tryWrap {E A : Type} (now : Nat) (devCell : Option String) (excelHost : Bool)
    (toJsError : E → JsError) (label : String) (fn : Except E A) (st : EHState) :
    Option A × (EHState × List EHEffect) :=
  let st1 := initEH devCell st
  match fn with
  | Except.ok a => (some a, (st1, []))
  | Except.error e => (none, handleError now devCell excelHost (toJsError e) label st1)

/-! ### Specification-side definitions

These re-state, in the spec's own words, the properties the claims compare
against the embedded code. -/

/-- An area with normalized corners (data-model invariant of the spec). -/
def Area.normalized (a : Area) : Prop := a.c1 ≤ a.c2 ∧ a.r1 ≤ a.r2

/-- The A1 token pattern as claim C6 words it: after uppercasing, a
non-empty run of letters followed by a non-empty run of digits and nothing
else. -/
def isA1TokenSpec (s : String) : Prop :=
  ∃ letters digits : List Char,
    s.toList.map jsUpperChar = letters ++ digits ∧
    letters ≠ [] ∧ digits ≠ [] ∧
    (∀ c ∈ letters, isUpperAlpha c = true) ∧
    (∀ c ∈ digits, isDigitChar c = true)

/-- Claim C3's sheet-matching condition: the rule's sheet name equals the
current sheet, case-insensitively and trimmed. -/
def ruleSheetMatches (s : String) (r : RouteRule) : Bool :=
  jsTrim (jsToLower r.sheet) == s

/-- Claim C3's "the rule's match fires": either the address containment
test succeeds, or the named range resolves onto the current sheet and its
localized address passes the same containment test. -/
def ruleFires (env : String → Option String) (s sel : String) (r : RouteRule) : Bool :=
  ruleAddressFires sel r || ruleNameFires env s sel r

/-- The base form id as the spec words it (claim C4): the lowercased
identifier captured from the hint when it names a known form; otherwise the
lowercase-trimmed sheet name when it names a known form; otherwise
`"default"`.  "Names a known form" is membership among the registered form
ids, i.e. the own keys of `HtmlMap`. -/
def specBaseFormId (hintText sheetName : String) : String :=
  match (findHint hintText.toList).map (fun ident => (ident.map jsLowerChar).asString) with
  | some h =>
    if (HtmlMap h).isSome then h
    else if (HtmlMap (jsTrim (jsToLower sheetName))).isSome then jsTrim (jsToLower sheetName)
    else "default"
  | none =>
    if (HtmlMap (jsTrim (jsToLower sheetName))).isSome then jsTrim (jsToLower sheetName)
    else "default"

/-! ### Character-level lemmas -/

theorem toList_asString (l : List Char) : (l.asString).toList = l := rfl

theorem toNat_ofNat_lt {n : Nat} (h : n < 55296) : (Char.ofNat n).toNat = n := by
  have hv : n.isValidChar := Or.inl h
  have h2 : n < 2 ^ 32 := by omega
  simp [Char.ofNat, hv, Char.ofNatAux, Char.toNat, UInt32.toNat, BitVec.toNat_ofNatLt]

theorem jsUpperChar_toNat (c : Char) :
    (jsUpperChar c).toNat = if isLowerAlpha c then c.toNat - 32 else c.toNat := by
  by_cases h : isLowerAlpha c = true
  · have hb : 97 ≤ c.toNat ∧ c.toNat ≤ 122 := of_decide_eq_true h
    simp [jsUpperChar, h, toNat_ofNat_lt (by omega : c.toNat - 32 < 55296)]
  · simp [jsUpperChar, h]

theorem jsLowerChar_toNat (c : Char) :
    (jsLowerChar c).toNat = if isUpperAlpha c then c.toNat + 32 else c.toNat := by
  by_cases h : isUpperAlpha c = true
  · have hb : 65 ≤ c.toNat ∧ c.toNat ≤ 90 := of_decide_eq_true h
    simp [jsLowerChar, h, toNat_ofNat_lt (by omega : c.toNat + 32 < 55296)]
  · simp [jsLowerChar, h]

theorem isLowerAlpha_jsUpperChar (c : Char) : isLowerAlpha (jsUpperChar c) = false := by
  by_cases h : isLowerAlpha c = true
  · have hb : 97 ≤ c.toNat ∧ c.toNat ≤ 122 := of_decide_eq_true h
    have ht : (jsUpperChar c).toNat = c.toNat - 32 := by rw [jsUpperChar_toNat, if_pos h]
    simp only [isLowerAlpha, ht, decide_eq_false_iff_not]
    omega
  · have hb : ¬(97 ≤ c.toNat ∧ c.toNat ≤ 122) := fun hp => h (decide_eq_true hp)
    have ht : (jsUpperChar c).toNat = c.toNat := by rw [jsUpperChar_toNat, if_neg h]
    simp only [isLowerAlpha, ht, decide_eq_false_iff_not]
    exact hb

theorem isUpperAlpha_jsLowerChar (c : Char) : isUpperAlpha (jsLowerChar c) = false := by
  by_cases h : isUpperAlpha c = true
  · have hb : 65 ≤ c.toNat ∧ c.toNat ≤ 90 := of_decide_eq_true h
    have ht : (jsLowerChar c).toNat = c.toNat + 32 := by rw [jsLowerChar_toNat, if_pos h]
    simp only [isUpperAlpha, ht, decide_eq_false_iff_not]
    omega
  · have hb : ¬(65 ≤ c.toNat ∧ c.toNat ≤ 90) := fun hp => h (decide_eq_true hp)
    have ht : (jsLowerChar c).toNat = c.toNat := by rw [jsLowerChar_toNat, if_neg h]
    simp only [isUpperAlpha, ht, decide_eq_false_iff_not]
    exact hb

theorem jsUpperChar_idem (c : Char) : jsUpperChar (jsUpperChar c) = jsUpperChar c := by
  have he : jsUpperChar (jsUpperChar c) =
      if isLowerAlpha (jsUpperChar c) then Char.ofNat ((jsUpperChar c).toNat - 32)
      else jsUpperChar c := rfl
  rw [he, isLowerAlpha_jsUpperChar]
  simp

theorem jsLowerChar_idem (c : Char) : jsLowerChar (jsLowerChar c) = jsLowerChar c := by
  have he : jsLowerChar (jsLowerChar c) =
      if isUpperAlpha (jsLowerChar c) then Char.ofNat ((jsLowerChar c).toNat + 32)
      else jsLowerChar c := rfl
  rw [he, isUpperAlpha_jsLowerChar]
  simp

theorem jsUpperChar_eq_dollar {c : Char} (h : jsUpperChar c = '$') : c = '$' := by
  by_cases hl : isLowerAlpha c = true
  · exfalso
    have hb : 97 ≤ c.toNat ∧ c.toNat ≤ 122 := of_decide_eq_true hl
    have h2 : (jsUpperChar c).toNat = c.toNat - 32 := by simp [jsUpperChar_toNat, hl]
    rw [h] at h2
    have h3 : ('$').toNat = 36 := rfl
    omega
  · have h2 : jsUpperChar c = c := by simp [jsUpperChar, hl]
    rw [h2] at h
    exact h

theorem isSpace_jsLowerChar (c : Char) : isSpace (jsLowerChar c) = isSpace c := by
  by_cases h : isUpperAlpha c = true
  · have hb : 65 ≤ c.toNat ∧ c.toNat ≤ 90 := of_decide_eq_true h
    have h2 : (jsLowerChar c).toNat = c.toNat + 32 := by simp [jsLowerChar_toNat, h]
    simp only [isSpace, h2, decide_eq_decide]
    omega
  · have h2 : jsLowerChar c = c := by simp [jsLowerChar, h]
    rw [h2]

/-! ### List-level lemmas about trim, case mapping and filtering -/

theorem dropWhile_map_inv (f : Char → Char) (p : Char → Bool)
    (hp : ∀ c, p (f c) = p c) (l : List Char) :
    (l.map f).dropWhile p = (l.dropWhile p).map f := by
  induction l with
  | nil => rfl
  | cons a t ih =>
    by_cases h : p a = true
    · simp [List.dropWhile_cons, hp, h, ih]
    · simp [List.dropWhile_cons, hp, h]

theorem trimChars_map_comm (f : Char → Char) (hp : ∀ c, isSpace (f c) = isSpace c)
    (l : List Char) : trimChars (l.map f) = (trimChars l).map f := by
  unfold trimChars
  rw [dropWhile_map_inv f isSpace hp, ← List.map_reverse,
    dropWhile_map_inv f isSpace hp, ← List.map_reverse]

theorem dropWhile_rev_dropWhile_prefix (p : Char → Bool) (z : List Char) :
    (z.reverse.dropWhile p).reverse <+: z := by
  have h : z.reverse.dropWhile p <:+ z.reverse := List.dropWhile_suffix p
  have h2 := List.reverse_prefix.mpr h
  rwa [List.reverse_reverse] at h2

theorem dropWhile_dropTrailing (p : Char → Bool) (y : List Char)
    (hy : y.dropWhile p = y) :
    ((y.reverse.dropWhile p).reverse).dropWhile p = (y.reverse.dropWhile p).reverse := by
  cases hBy : (y.reverse.dropWhile p).reverse with
  | nil => simp
  | cons c t =>
    have hpre : (y.reverse.dropWhile p).reverse <+: y := dropWhile_rev_dropWhile_prefix p y
    rw [hBy] at hpre
    obtain ⟨u, hu⟩ := hpre
    have hy2 : y = c :: (t ++ u) := by rw [← hu]; simp
    have hc : p c = false := by
      by_contra hcc
      have hc1 : p c = true := by revert hcc; cases p c <;> simp
      have hy3 := hy
      rw [hy2, List.dropWhile_cons, if_pos hc1] at hy3
      have hlen := congrArg List.length hy3
      simp only [List.length_cons, List.length_append] at hlen
      have hle := (List.dropWhile_suffix (l := t ++ u) p).length_le
      simp only [List.length_append] at hle
      omega
    rw [List.dropWhile_cons, if_neg (by simp [hc])]

theorem trimChars_idem (l : List Char) : trimChars (trimChars l) = trimChars l := by
  unfold trimChars
  have hyF : (l.dropWhile isSpace).dropWhile isSpace = l.dropWhile isSpace :=
    List.dropWhile_idempotent isSpace l
  have hFB := dropWhile_dropTrailing isSpace (l.dropWhile isSpace) hyF
  rw [hFB, List.reverse_reverse, List.dropWhile_idempotent]

theorem lower_map_idem (l : List Char) :
    (l.map jsLowerChar).map jsLowerChar = l.map jsLowerChar := by
  rw [List.map_map]
  exact List.map_congr_left fun a _ => jsLowerChar_idem a

/-- Idempotence of the lowercase-trim combination used for sheet names. -/
theorem lowtrim_idem (x : String) :
    jsTrim (jsToLower (jsTrim (jsToLower x))) = jsTrim (jsToLower x) := by
  unfold jsTrim jsToLower
  simp only [toList_asString]
  have h1 : (trimChars (x.toList.map jsLowerChar)).map jsLowerChar
      = trimChars ((x.toList.map jsLowerChar).map jsLowerChar) :=
    (trimChars_map_comm jsLowerChar isSpace_jsLowerChar _).symm
  rw [h1, lower_map_idem, trimChars_idem]

/-! ### Claim theorems -/

/-- Claim C1: for all areas `a` and `b` with normalized corners,
`areaContains a b` is true exactly when `a.c1 ≤ b.c1`, `a.r1 ≤ b.r1`,
`a.c2 ≥ b.c2` and `a.r2 ≥ b.r2`; in particular containment is reflexive. -/
theorem claim_C1_areaContains (a b : Area)
    (ha : a.normalized) (hb : b.normalized) :
    (areaContains a b = true ↔
      a.c1 ≤ b.c1 ∧ a.r1 ≤ b.r1 ∧ a.c2 ≥ b.c2 ∧ a.r2 ≥ b.r2) ∧
    areaContains a a = true := by
  constructor
  · simp [areaContains, and_assoc]
  · simp [areaContains]

/-- Witness for C1 at concrete normalized areas. -/
theorem claim_C1_witness :
    ((areaContains ⟨1, 1, 3, 3⟩ ⟨2, 2, 3, 3⟩ = true ↔
      1 ≤ 2 ∧ 1 ≤ 2 ∧ 3 ≥ 3 ∧ 3 ≥ 3) ∧
     areaContains ⟨1, 1, 3, 3⟩ ⟨1, 1, 3, 3⟩ = true) :=
  claim_C1_areaContains ⟨1, 1, 3, 3⟩ ⟨2, 2, 3, 3⟩ (by constructor <;> decide)
    (by constructor <;> decide)

/-- Claim C2: `containsAddress S T` holds exactly when every comma-separated
area of `T` is contained in some single comma-separated area of `S`; and the
union of the disjoint selection areas `"A1,C1"` does not cover `"A1:C1"`. -/
theorem claim_C2_containsAddress (S T : String) :
    (containsAddress S T = true ↔
      ∀ t ∈ splitOnChar ',' T.toList, ∃ s ∈ splitOnChar ',' S.toList,
        areaContains (parseArea (jsTrim s.asString)) (parseArea (jsTrim t.asString)) = true) ∧
    containsAddress "A1,C1" "A1:C1" = false := by
  refine ⟨?_, by decide⟩
  simp [containsAddress, List.all_eq_true, List.any_eq_true]

/-- Claim C5, counterexample: the claim says `parsePoint "ZZ"` has column
`colToNum "ZZ" = 702`, but the anchored pattern `^([A-Z]+)(\d+)$` requires
at least one digit, so the digit-less token falls to the `{c:1, r:1}`
default. -/
theorem claim_C5_counterexample :
    parsePoint "ZZ" ≠ { c := 702, r := 1 } ∧ colToNum "ZZ" = 702 := by
  constructor
  · decide
  · decide

/-- Claim C5 as amended: the malformed token `"ZZ"` (letters, no digits)
does not match the A1 pattern, so `parsePoint` returns the column-1/row-1
default without raising; the base-26 value of its letters would be 702 but
is never consulted. -/
theorem claim_C5_amended :
    parsePoint "ZZ" = { c := 1, r := 1 } ∧ colToNum "ZZ" = 702 := by
  constructor
  · decide
  · decide

/-- Claim C7: a selection-changed event inside the cooldown window leaves
the render state untouched and produces no effect (no badge update, no
form fetch): the event is dropped, not queued. -/
theorem claim_C7_cooldown (now now2 : Nat) (wsName : String)
    (a1Text : List (List String)) (selAddress : String)
    (env : String → Option String) (rules : List RouteRule) (st : RenderState)
    (h : now - st.lastRenderTs < RENDER_COOLDOWN_MS) :
    onSelectionChanged now now2 wsName a1Text selAddress env rules st = (st, []) := by
  unfold onSelectionChanged
  rw [if_pos h]

/-- Witness for C7: an event 50 ms after the last render is suppressed. -/
theorem claim_C7_witness :
    (100 - (RenderState.mk 50 none).lastRenderTs < RENDER_COOLDOWN_MS) ∧
    onSelectionChanged 100 200 "Settings" [["form: settings"]] "B3"
      (fun _ => none) [] (RenderState.mk 50 none) = (RenderState.mk 50 none, []) :=
  ⟨by decide,
   claim_C7_cooldown 100 200 "Settings" [["form: settings"]] "B3"
     (fun _ => none) [] (RenderState.mk 50 none) (by decide)⟩

/-- Claim C8: `tryWrap` is total (its result type carries no error): a body
that completes has its value returned unchanged with no report, and a body
that throws or rejects is routed to `handleError` with the label and the
call resolves to `undefined` (`none`). -/
theorem claim_C8_tryWrap {E A : Type} (now : Nat) (devCell : Option String)
    (excelHost : Bool) (toJsError : E → JsError) (label : String)
    (fn : Except E A) (st : EHState) :
    (∀ a, fn = Except.ok a →
      tryWrap now devCell excelHost toJsError label fn st =
        (some a, (initEH devCell st, []))) ∧
    (∀ e, fn = Except.error e →
      tryWrap now devCell excelHost toJsError label fn st =
        (none, handleError now devCell excelHost (toJsError e) label (initEH devCell st))) := by
  constructor
  · intro a ha
    subst ha
    rfl
  · intro e he
    subst he
    rfl

/-- Witness for C8 at a completing and at a throwing body. -/
theorem claim_C8_witness :
    (tryWrap 0 none false (fun s : String => JsError.mk (some s) none s) "Save Guest"
      (Except.ok (7 : Nat))
      (EHState.mk false true false ⟨"", 0⟩ ⟨6, 6, 10000, 0, false⟩ ⟨20, 20, 60000, 0, false⟩) =
      (some 7, (initEH none
        (EHState.mk false true false ⟨"", 0⟩ ⟨6, 6, 10000, 0, false⟩ ⟨20, 20, 60000, 0, false⟩), []))) ∧
    (tryWrap 0 none false (fun s : String => JsError.mk (some s) none s) "Save Guest"
      (Except.error "boom" : Except String Nat)
      (EHState.mk false true false ⟨"", 0⟩ ⟨6, 6, 10000, 0, false⟩ ⟨20, 20, 60000, 0, false⟩) =
      (none, handleError 0 none false (JsError.mk (some "boom") none "boom") "Save Guest"
        (initEH none
          (EHState.mk false true false ⟨"", 0⟩ ⟨6, 6, 10000, 0, false⟩ ⟨20, 20, 60000, 0, false⟩)))) :=
  ⟨(claim_C8_tryWrap 0 none false (fun s : String => JsError.mk (some s) none s) "Save Guest"
      (Except.ok (7 : Nat)) _).1 7 rfl,
   (claim_C8_tryWrap 0 none false (fun s : String => JsError.mk (some s) none s) "Save Guest"
      (Except.error "boom" : Except String Nat) _).2 "boom" rfl⟩

/-- Claim C9: `normalizeA1` is idempotent. -/
theorem claim_C9_normalizeA1_idempotent (x : String) :
    normalizeA1 (normalizeA1 x) = normalizeA1 x := by
  unfold normalizeA1
  simp only [toList_asString]
  apply congrArg List.asString
  have h1 : ((x.toList.filter (fun c => c != '$')).map jsUpperChar).filter (fun c => c != '$')
      = (x.toList.filter (fun c => c != '$')).map jsUpperChar := by
    apply List.filter_eq_self.mpr
    intro a ha
    rcases List.mem_map.mp ha with ⟨b, hb, rfl⟩
    have hbp : (b != '$') = true := List.of_mem_filter (p := fun c => c != '$') hb
    have hbne : b ≠ '$' := by simpa using hbp
    have : jsUpperChar b ≠ '$' := fun hc => hbne (jsUpperChar_eq_dollar hc)
    simpa using this
  rw [h1, List.map_map]
  exact List.map_congr_left fun a _ => jsUpperChar_idem a

/-- A successful `parsePoint` guard exhibits the C6 token decomposition. -/
theorem parsePoint_guard {s : String}
    (hc : (!((s.toList.map jsUpperChar).takeWhile isUpperAlpha).isEmpty &&
           !((s.toList.map jsUpperChar).dropWhile isUpperAlpha).isEmpty &&
           ((s.toList.map jsUpperChar).dropWhile isUpperAlpha).all isDigitChar) = true) :
    isA1TokenSpec s := by
  rw [Bool.and_eq_true, Bool.and_eq_true, Bool.not_eq_true', Bool.not_eq_true'] at hc
  obtain ⟨⟨h1, h2⟩, h3⟩ := hc
  refine ⟨(s.toList.map jsUpperChar).takeWhile isUpperAlpha,
          (s.toList.map jsUpperChar).dropWhile isUpperAlpha,
          (List.takeWhile_append_dropWhile isUpperAlpha _).symm, ?_, ?_, ?_, ?_⟩
  · intro hnil
    rw [hnil] at h1
    simp at h1
  · intro hnil
    rw [hnil] at h2
    simp at h2
  · exact fun c hcm => List.mem_takeWhile_imp hcm
  · exact fun c hcm => List.all_eq_true.mp h3 c hcm

/-- Claim C6: `parsePoint` is total; every input that does not match the A1
token pattern (letters then digits, after uppercasing) yields column 1,
row 1. -/
theorem claim_C6_parsePoint_total (s : String) (h : ¬ isA1TokenSpec s) :
    parsePoint s = { c := 1, r := 1 } := by
  have hrw : parsePoint s =
      if (!((s.toList.map jsUpperChar).takeWhile isUpperAlpha).isEmpty &&
          !((s.toList.map jsUpperChar).dropWhile isUpperAlpha).isEmpty &&
          ((s.toList.map jsUpperChar).dropWhile isUpperAlpha).all isDigitChar) = true then
        { c := colToNum ((s.toList.map jsUpperChar).takeWhile isUpperAlpha).asString,
          r := parseDecimal ((s.toList.map jsUpperChar).dropWhile isUpperAlpha) }
      else { c := 1, r := 1 } := rfl
  rw [hrw]
  split
  · next hc => exact absurd (parsePoint_guard hc) h
  · rfl

/-- Witness for C6 at the empty string. -/
theorem claim_C6_witness :
    (¬ isA1TokenSpec "") ∧ parsePoint "" = { c := 1, r := 1 } := by
  have hno : ¬ isA1TokenSpec "" := by
    rintro ⟨letters, digits, heq, -, hd, -, -⟩
    have hnil : letters ++ digits = [] := heq.symm
    exact hd (List.append_eq_nil.mp hnil).2
  exact ⟨hno, claim_C6_parsePoint_total "" hno⟩

/-- Claim C10: `handleError` never runs its reporting body re-entrantly —
with the `inHandle` flag set the nested call only logs a console note and
changes nothing (no toast, no dedupe update, no workbook log), while an
outer invocation always leaves the flag cleared. -/
theorem claim_C10_handleError_reentrancy (now : Nat) (devCell : Option String)
    (excelHost : Bool) (e : JsError) (context : String) (st : EHState) :
    (st.inHandle = true →
      handleError now devCell excelHost e context st =
        (st, [EHEffect.console "Nested error ignored"])) ∧
    (st.inHandle = false →
      (handleError now devCell excelHost e context st).1.inHandle = false) := by
  constructor
  · intro h
    unfold handleError
    rw [if_pos h]
  · intro h
    unfold handleError
    rw [if_neg (by simp [h])]
    dsimp only
    split
    · rfl
    · split
      · split
        · split
          · rfl
          · rfl
        · rfl
      · rfl

/-- Witness for C10: a nested call with the flag set is a no-op, and an
outer call ends with the flag cleared. -/
theorem claim_C10_witness :
    (handleError 5 none true (JsError.mk (some "x") none "x") "ctx"
      (EHState.mk true true true ⟨"", 0⟩ ⟨6, 6, 10000, 0, false⟩ ⟨20, 20, 60000, 0, false⟩) =
      (EHState.mk true true true ⟨"", 0⟩ ⟨6, 6, 10000, 0, false⟩ ⟨20, 20, 60000, 0, false⟩,
       [EHEffect.console "Nested error ignored"])) ∧
    ((handleError 5 none true (JsError.mk (some "x") none "x") "ctx"
      (EHState.mk true true false ⟨"", 0⟩ ⟨6, 6, 10000, 0, false⟩ ⟨20, 20, 60000, 0, false⟩)).1.inHandle = false) :=
  ⟨(claim_C10_handleError_reentrancy 5 none true (JsError.mk (some "x") none "x") "ctx"
      (EHState.mk true true true ⟨"", 0⟩ ⟨6, 6, 10000, 0, false⟩ ⟨20, 20, 60000, 0, false⟩)).1 rfl,
   (claim_C10_handleError_reentrancy 5 none true (JsError.mk (some "x") none "x") "ctx"
      (EHState.mk true true false ⟨"", 0⟩ ⟨6, 6, 10000, 0, false⟩ ⟨20, 20, 60000, 0, false⟩)).2 rfl⟩

/-- The rule loop returns the form of the first rule whose sheet matches
and whose match fires. -/
theorem overrideLoop_eq_find (env : String → Option String) (s sel : String)
    (rules : List RouteRule) :
    overrideLoop env s sel rules =
      (rules.find? fun r => ruleSheetMatches s r && ruleFires env s sel r).map
        RouteRule.form := by
  induction rules with
  | nil => rfl
  | cons r rest ih =>
    by_cases hs : (jsTrim (jsToLower r.sheet) == s) = true
    · have hbne : (jsTrim (jsToLower r.sheet) != s) = false := by
        simp [bne, hs]
      by_cases haf : ruleAddressFires sel r = true
      · have hp : (ruleSheetMatches s r && ruleFires env s sel r) = true := by
          simp [ruleSheetMatches, ruleFires, hs, haf]
        simp [overrideLoop, hbne, haf, List.find?_cons_of_pos (p := fun r => ruleSheetMatches s r && ruleFires env s sel r) rest hp]
      · by_cases hnf : ruleNameFires env s sel r = true
        · have hp : (ruleSheetMatches s r && ruleFires env s sel r) = true := by
            simp [ruleSheetMatches, ruleFires, hs, hnf]
          simp [overrideLoop, hbne, haf, hnf, List.find?_cons_of_pos (p := fun r => ruleSheetMatches s r && ruleFires env s sel r) rest hp]
        · have hp : ¬(ruleSheetMatches s r && ruleFires env s sel r) = true := by
            simp [ruleSheetMatches, ruleFires, hs, haf, hnf]
          simp [overrideLoop, hbne, haf, hnf, List.find?_cons_of_neg (p := fun r => ruleSheetMatches s r && ruleFires env s sel r) rest hp, ih]
    · have hbeq : (jsTrim (jsToLower r.sheet) == s) = false := by
        cases h2 : jsTrim (jsToLower r.sheet) == s
        · rfl
        · exact absurd h2 hs
      have hbne : (jsTrim (jsToLower r.sheet) != s) = true := by
        simp [bne, hbeq]
      have hp : ¬(ruleSheetMatches s r && ruleFires env s sel r) = true := by
        simp [ruleSheetMatches, hbeq]
      simp [overrideLoop, hbne, List.find?_cons_of_neg (p := fun r => ruleSheetMatches s r && ruleFires env s sel r) rest hp, ih]

/-- Claim C3: `pickSelectionOverride` returns the form of the first rule in
declaration order whose sheet name matches (case-insensitive, trimmed) and
whose match fires; and within a rule, a firing address test decides the
outcome for every name environment — the named-range test is subordinate to
it. -/
theorem claim_C3_pickSelectionOverride (env : String → Option String)
    (rules : List RouteRule) (sheetName selectionAddress : String) :
    (pickSelectionOverride env rules sheetName selectionAddress =
      (rules.find? fun r =>
        ruleSheetMatches (jsTrim (jsToLower sheetName)) r &&
        ruleFires env (jsTrim (jsToLower sheetName)) (normalizeA1 selectionAddress) r).map
          RouteRule.form) ∧
    (∀ (r : RouteRule) (rest : List RouteRule) (a : String),
      ruleSheetMatches (jsTrim (jsToLower sheetName)) r = true →
      r.address = some a →
      containsAddress (normalizeA1 selectionAddress) (normalizeA1 a) = true →
      pickSelectionOverride env (r :: rest) sheetName selectionAddress = some r.form) := by
  have hidem : jsTrim (jsToLower (jsTrim (jsToLower sheetName))) = jsTrim (jsToLower sheetName) :=
    lowtrim_idem sheetName
  constructor
  · unfold pickSelectionOverride
    by_cases hr : hasSelectionRoutesForSheet rules (jsTrim (jsToLower sheetName)) = true
    · simp only [hr, Bool.not_true, Bool.false_eq_true, if_false]
      exact overrideLoop_eq_find env _ _ rules
    · have hr2 : hasSelectionRoutesForSheet rules (jsTrim (jsToLower sheetName)) = false := by
        revert hr
        cases hasSelectionRoutesForSheet rules (jsTrim (jsToLower sheetName)) <;> simp
      have hall : ∀ r ∈ rules,
          ¬(ruleSheetMatches (jsTrim (jsToLower sheetName)) r &&
            ruleFires env (jsTrim (jsToLower sheetName)) (normalizeA1 selectionAddress) r) = true := by
        intro r hrm hcontra
        rw [Bool.and_eq_true] at hcontra
        have hmatch := hcontra.1
        unfold hasSelectionRoutesForSheet at hr2
        rw [hidem] at hr2
        have hany : rules.any
            (fun r => jsTrim (jsToLower r.sheet) == jsTrim (jsToLower sheetName)) = true := by
          refine List.any_eq_true.mpr ⟨r, hrm, ?_⟩
          simpa [ruleSheetMatches] using hmatch
        rw [hr2] at hany
        exact Bool.false_ne_true hany
      rw [List.find?_eq_none.mpr hall]
      simp [hr2]
  · intro r rest a hmatch haddr hcontain
    have haf : ruleAddressFires (normalizeA1 selectionAddress) r = true := by
      simp [ruleAddressFires, haddr, hcontain]
    have hroutes : hasSelectionRoutesForSheet (r :: rest) (jsTrim (jsToLower sheetName)) = true := by
      unfold hasSelectionRoutesForSheet
      rw [hidem]
      refine List.any_eq_true.mpr ⟨r, List.mem_cons_self r rest, ?_⟩
      simpa [ruleSheetMatches] using hmatch
    have hbne : (jsTrim (jsToLower r.sheet) != jsTrim (jsToLower sheetName)) = false := by
      have := hmatch
      simp only [ruleSheetMatches] at this
      simp [bne, this]
    unfold pickSelectionOverride
    simp [hroutes, overrideLoop, hbne, haf]

/-- Witness for C3: the shipped route `{sheet: "settings", address: "B3",
form: "colorPalette"}` fires on sheet `"Settings"` with selection `"B3"`,
under an environment that resolves no names. -/
theorem claim_C3_witness :
    pickSelectionOverride (fun _ => none)
      [RouteRule.mk "settings" (some "B3") none "colorPalette"] "Settings" "B3" =
      some "colorPalette" :=
  (claim_C3_pickSelectionOverride (fun _ => none)
      [RouteRule.mk "settings" (some "B3") none "colorPalette"] "Settings" "B3").2
    (RouteRule.mk "settings" (some "B3") none "colorPalette") [] "B3"
    (by decide) rfl (by decide)

/-- Claim C4, evaluated at the failing inputs: the bare `HtmlMap[key]`
lookup in `pickFormId` is truthy at `Object.prototype`-inherited keys, so
the hint identifier `constructor` (which the class `[a-z0-9_-]+` matches)
and the unknown sheet name `" Constructor "` both resolve to
`"constructor"` — an id with no registered form (`HtmlMap "constructor" =
none`) — where the claim, matched by the spec-side `specBaseFormId`,
requires the fallback `"default"`.  On hints and sheet names clear of the
inherited keys the code behaves as the claim says (last two conjuncts). -/
theorem claim_C4_prototype_leak :
    pickFormId (parseFormHintFromCell [["form:constructor"]]) "Orders" = "constructor" ∧
    pickFormId (parseFormHintFromCell [[""]]) " Constructor " = "constructor" ∧
    HtmlMap "constructor" = none ∧
    specBaseFormId "form:constructor" "Orders" = "default" ∧
    specBaseFormId "" " Constructor " = "default" ∧
    pickFormId (parseFormHintFromCell [["form:settings"]]) "Orders" = "settings" ∧
    pickFormId (parseFormHintFromCell [[""]]) "Orders" = "default" := by
  refine ⟨by decide, by decide, by decide, by decide, by decide, by decide, by decide⟩

end AddIn
